import Mathlib

/-!
Shallow embedding of `sdks/python/apache_beam/dataframe/expressions.py`:
a deferred-evaluation expression graph (Expression, with Placeholder,
Constant and Computed variants) and a memoizing `Session` evaluator.

Modelling conventions:
* The class hierarchy is a closed sum `Expression V`: the three concrete
  variants plus `base`, which stands for a bare instance of the abstract
  `Expression` class (Python allows constructing one; its evaluation and
  partitioning methods raise `NotImplementedError`).
* Python's `id(self)` (the memory address used as a fallback identity
  token in `Expression.__init__`) is modelled by an explicit `objId`
  argument to each constructor; distinct live objects have distinct
  `objId`s.
* `Session._bindings` is a Python dict keyed by `Expression` values whose
  `__hash__`/`__eq__` are defined by `_id` alone; it is embedded as an
  association list looked up and updated by the `_id` string.
* Exceptions (`KeyError` from dict lookup, `NotImplementedError` from the
  abstract base class) become the `EvalError` sum, and fallible calls
  return `Except EvalError`.
* In this source, no `evaluate_at` method ever mutates the session
  (`PlaceholderExpression.evaluate_at` only reads via `session.lookup`,
  `ConstantExpression.evaluate_at` ignores it, and
  `ComputedExpression.evaluate_at` recurses directly into the children's
  `evaluate_at`), so `evaluate_at` is embedded as a read-only function of
  the bindings.  `Session.evaluate` is the only mutation point and is
  embedded as returning the updated bindings.
-/

namespace Beam

/-- Errors surfaced by the core: `KeyError` raised by a dict lookup (the
key is the expression's `_id`), and `NotImplementedError(type(self))`
raised by the abstract base class methods (carrying the type name). -/
inductive EvalError where
  | keyError : String → EvalError
  | notImplemented : String → EvalError
deriving DecidableEq, Repr

/-- Expression nodes, as a closed sum over the class hierarchy of the
source.  `base` is a bare instance of the abstract `Expression` class;
`placeholder`, `constant` and `computed` are the three concrete
subclasses.  Each constructor's last `String` field is the node's `_id`.
A `computed` node carries its name, function, ordered argument tuple,
proxy, identity, and the two partitioning flags
(`requires_partition_by_index`, `preserves_partition_by_index`). -/
inductive Expression (V : Type) where
  | base : String → V → String → Expression V
  | placeholder : V → String → Expression V
  | constant : V → V → String → Expression V
  | computed : String → (List V → V) → List (Expression V) → V → String →
      Bool → Bool → Expression V

variable {V : Type}

/-- The `_id` field assigned in `Expression.__init__`:
`self._id = _id or '%s_%s' % (name, id(self))`.  Note Python truthiness:
an explicit empty string also falls back to the generated token. -/
def mkId (name : String) (oid : Option String) (objId : String) : String :=
  match oid with
  | none => name ++ "_" ++ objId
  | some s => if s = "" then name ++ "_" ++ objId else s

/-- A bare `Expression(name, proxy, _id)` instance. -/
def expression (name : String) (proxy : V) (oid : Option String)
    (objId : String) : Expression V :=
  .base name proxy (mkId name oid objId)

/-- The `PlaceholderExpression(proxy)` constructor: calls
`Expression.__init__('placeholder', proxy)` with no explicit `_id`. -/
def placeholderExpression (proxy : V) (objId : String) : Expression V :=
  .placeholder proxy (mkId "placeholder" none objId)

/-- The `ConstantExpression(value, proxy=None)` constructor: when no proxy
is supplied the value itself is used, and `Expression.__init__` is called
with name `'constant'` and no explicit `_id`. -/
def constantExpression (value : V) (proxy : Option V) (objId : String) :
    Expression V :=
  .constant value (match proxy with | some p => p | none => value) (mkId "constant" none objId)

/-- Accessor for the `_id` field. -/
def Expression.ident : Expression V → String
  | .base _ _ i => i
  | .placeholder _ i => i
  | .constant _ _ i => i
  | .computed _ _ _ _ i _ _ => i

/-- The `proxy()` method: returns `self._proxy`. -/
def Expression.proxy : Expression V → V
  | .base _ p _ => p
  | .placeholder p _ => p
  | .constant _ p _ => p
  | .computed _ _ _ p _ _ _ => p

/-- The `ComputedExpression(name, func, args, proxy=None, _id=None,
requires_partition_by_index=True, preserves_partition_by_index=False)`
constructor: `args` is forced to a tuple, and when no proxy is supplied
one is derived as `func(*(arg.proxy() for arg in args))`. -/
def computedExpression (name : String) (func : List V → V)
    (args : List (Expression V)) (proxy : Option V) (oid : Option String)
    (requiresPBI : Bool) (preservesPBI : Bool) (objId : String) :
    Expression V :=
  .computed name func args
    (match proxy with | some p => p | none => func (args.map Expression.proxy))
    (mkId name oid objId) requiresPBI preservesPBI

/-- A `ComputedExpression` constructed without explicit flag arguments:
the Python defaults are `requires_partition_by_index=True` and
`preserves_partition_by_index=False`. -/
def computedExpressionDefault (name : String) (func : List V → V)
    (args : List (Expression V)) (proxy : Option V) (oid : Option String)
    (objId : String) : Expression V :=
  computedExpression name func args proxy oid true false objId

/-- The module-level `elementwise_expression(name, func, args)` factory:
a `ComputedExpression` with `requires_partition_by_index=False` and
`preserves_partition_by_index=True` (proxy and `_id` left at their
defaults). -/
def elementwise_expression (name : String) (func : List V → V)
    (args : List (Expression V)) (objId : String) : Expression V :=
  computedExpression name func args none none false true objId

/-- The `args()` method: the children, in order; empty for the leaves.
(The abstract base class defines no `args`; `[]` for `base` is a harmless
total-ization, unused by any theorem below.) -/
def Expression.args : Expression V → List (Expression V)
  | .base _ _ _ => []
  | .placeholder _ _ => []
  | .constant _ _ _ => []
  | .computed _ _ as _ _ _ _ => as

/-- Python `__eq__`: `self._id == other._id`. -/
def Expression.beq (a b : Expression V) : Bool :=
  a.ident == b.ident

/-- Python `__hash__`: `hash(self._id)`. -/
def Expression.hashVal (e : Expression V) : UInt64 :=
  e.ident.hash

/-- The `requires_partition_by_index()` method of each variant: `False`
for the leaves, the stored flag for `computed`, and a
`NotImplementedError` on the abstract base class. -/
def Expression.requires_partition_by_index : Expression V → Except EvalError Bool
  | .base _ _ _ => .error (.notImplemented "Expression")
  | .placeholder _ _ => .ok false
  | .constant _ _ _ => .ok false
  | .computed _ _ _ _ _ r _ => .ok r

/-- The `preserves_partition_by_index()` method of each variant: `False`
for the leaves, the stored flag for `computed`, and a
`NotImplementedError` on the abstract base class. -/
def Expression.preserves_partition_by_index : Expression V → Except EvalError Bool
  | .base _ _ _ => .error (.notImplemented "Expression")
  | .placeholder _ _ => .ok false
  | .constant _ _ _ => .ok false
  | .computed _ _ _ _ _ _ p => .ok p

/-- The contents of a `Session._bindings` dict: an association list from
expression (keyed by its `_id`, matching the dict's `__hash__`/`__eq__`
behaviour) to evaluated value. -/
abbrev Bindings (V : Type) := List (Expression V × V)

/-- Dict lookup by identity: the value stored under a key whose `_id`
equals `i`, if any. -/
def Bindings.lookupId : Bindings V → String → Option V
  | [], _ => none
  | (k, w) :: rest, i => if k.ident = i then some w else Bindings.lookupId rest i

/-- Dict assignment `d[e] = v`: replace the value under an existing key
with equal `_id`, else add a new entry. -/
def Bindings.insert : Bindings V → Expression V → V → Bindings V
  | [], e, v => [(e, v)]
  | (k, w) :: rest, e, v =>
      if k.ident = e.ident then (k, v) :: rest
      else (k, w) :: Bindings.insert rest e v

/-- `Session.lookup(expr)`: `return self._bindings[expr]` — the cached
value for `expr`'s identity, or a `KeyError` if absent. -/
def Session.lookup (s : Bindings V) (e : Expression V) : Except EvalError V :=
  match Bindings.lookupId s e.ident with
  | some v => .ok v
  | none => .error (.keyError e.ident)

mutual

/-- The `evaluate_at(session)` method of each variant, as in the source:
the abstract base raises `NotImplementedError(type(self))`; a placeholder
delegates to `session.lookup(self)`; a constant returns its stored value;
a computed node evaluates `self._func(*(arg.evaluate_at(session) for arg
in self._args))` — note the direct recursion into each child's
`evaluate_at`, not a call back into `session.evaluate`. -/
def Expression.evaluate_at : Expression V → Bindings V → Except EvalError V
  | .base _ _ _, _ => .error (.notImplemented "Expression")
  | .placeholder _ i, s =>
      match Bindings.lookupId s i with
      | some v => .ok v
      | none => .error (.keyError i)
  | .constant v _ _, _ => .ok v
  | .computed _ f as _ _ _ _, s =>
      match Expression.evalArgs as s with
      | .ok vs => .ok (f vs)
      | .error e => .error e

/-- Left-to-right evaluation of an argument tuple by the starred
generator in `ComputedExpression.evaluate_at`: the first child failure
propagates before the function is applied. -/
def Expression.evalArgs : List (Expression V) → Bindings V → Except EvalError (List V)
  | [], _ => .ok []
  | a :: rest, s =>
      match Expression.evaluate_at a s with
      | .ok v =>
          match Expression.evalArgs rest s with
          | .ok vs => .ok (v :: vs)
          | .error e => .error e
      | .error e => .error e

end

mutual

/-- The same variant-dispatched `evaluate_at` evaluation, instrumented
with a trace: the list of `_id`s of the computed nodes whose wrapped
function is applied, in application order.  This models the side-effect
counter a test function would carry; the number of occurrences of an
identity in the trace is the number of times that node's function ran. -/
def Expression.evaluate_atTr : Expression V → Bindings V → Except EvalError (V × List String)
  | .base _ _ _, _ => .error (.notImplemented "Expression")
  | .placeholder _ i, s =>
      match Bindings.lookupId s i with
      | some v => .ok (v, [])
      | none => .error (.keyError i)
  | .constant v _ _, _ => .ok (v, [])
  | .computed _ f as _ i _ _, s =>
      match Expression.evalArgsTr as s with
      | .ok (vs, tr) => .ok (f vs, tr ++ [i])
      | .error e => .error e

/-- Traced left-to-right evaluation of an argument tuple. -/
def Expression.evalArgsTr : List (Expression V) → Bindings V → Except EvalError (List V × List String)
  | [], _ => .ok ([], [])
  | a :: rest, s =>
      match Expression.evaluate_atTr a s with
      | .ok (v, tr) =>
          match Expression.evalArgsTr rest s with
          | .ok (vs, trs) => .ok (v :: vs, tr ++ trs)
          | .error e => .error e
      | .error e => .error e

end

/-- `Session.evaluate(expr)`: if `expr` is not in `self._bindings`,
compute `expr.evaluate_at(self)` and store it under `expr`; return
`self._bindings[expr]`.  Embedded as returning the result together with
the post-call bindings; on an exception the assignment never executes, so
the bindings are unchanged. -/
def Session.evaluate (s : Bindings V) (e : Expression V) :
    Except EvalError V × Bindings V :=
  match Bindings.lookupId s e.ident with
  | some v => (.ok v, s)
  | none =>
      match Expression.evaluate_at e s with
      | .ok v => (.ok v, Bindings.insert s e v)
      | .error err => (.error err, s)

/-- `Session.evaluate`, instrumented with the same function-application
trace as `Expression.evaluate_atTr`: a cache hit applies no function. -/
def Session.evaluateTr (s : Bindings V) (e : Expression V) :
    Except EvalError (V × List String) × Bindings V :=
  match Bindings.lookupId s e.ident with
  | some v => (.ok (v, []), s)
  | none =>
      match Expression.evaluate_atTr e s with
      | .ok (v, tr) => (.ok (v, tr), Bindings.insert s e v)
      | .error err => (.error err, s)

/-!
Heap model for aliasing.  `Session.__init__` runs
`self._bindings = dict(bindings or {})`, which allocates a fresh dict
holding a copy of the caller's entries rather than storing the caller's
dict object.  To state what that buys (mutations of the caller's mapping
and of the session's cache do not interfere), dicts live in a small heap
of cells addressed by allocation order; `dict(b)` is an allocation. -/

/-- A heap of dict cells; the address of a cell is its index. -/
structure DictHeap (V : Type) where
  cells : List (Bindings V)

/-- Read the dict stored at address `a`. -/
def DictHeap.read (h : DictHeap V) (a : Nat) : Bindings V :=
  h.cells.getD a []

/-- Overwrite the dict stored at address `a` (a no-op on a dangling
address, which never arises below). -/
def DictHeap.write (h : DictHeap V) (a : Nat) (b : Bindings V) : DictHeap V :=
  ⟨h.cells.set a b⟩

/-- Allocate a fresh dict cell holding `b`; returns its (fresh) address. -/
def DictHeap.alloc (h : DictHeap V) (b : Bindings V) : Nat × DictHeap V :=
  (h.cells.length, ⟨h.cells ++ [b]⟩)

/-- `Session.__init__(bindings=None)`: `self._bindings = dict(bindings or
{})` — allocate a NEW dict containing a copy of the caller's entries (or
empty), and remember its address as `self._bindings`. -/
def Session.init (h : DictHeap V) (m : Option Nat) : Nat × DictHeap V :=
  h.alloc (match m with | some a => h.read a | none => [])

/-- `Session.evaluate` acting on the session's dict in the heap: read
`self._bindings`, run the evaluation, write the updated dict back. -/
def Session.evaluateH (h : DictHeap V) (sa : Nat) (e : Expression V) :
    Except EvalError V × DictHeap V :=
  let r := Session.evaluate (h.read sa) e
  (r.1, h.write sa r.2)

/-- `Session.lookup` acting on the session's dict in the heap. -/
def Session.lookupH (h : DictHeap V) (sa : Nat) (e : Expression V) :
    Except EvalError V :=
  Session.lookup (h.read sa) e

/-- Shared child of the diamond graph: `ComputedExpression('a', lambda:
1, [], _id='a')` — a computed node whose function application is what the
trace counts. -/
def diamondA : Expression Nat :=
  computedExpression "a" (fun _ => 1) [] none (some "a") true false "oa"

/-- Left arm of the diamond: `g(a)`. -/
def diamondG : Expression Nat :=
  computedExpression "g" (fun vs => vs.headD 0) [diamondA] none (some "g") true false "og"

/-- Right arm of the diamond: `h(a)`. -/
def diamondH : Expression Nat :=
  computedExpression "h" (fun vs => vs.headD 0) [diamondA] none (some "h") true false "oh"

/-- Root of the diamond graph `root = f(g(a), h(a))`, in which the child
`a` is reachable along two paths. -/
def diamondRoot : Expression Nat :=
  computedExpression "root" (fun vs => vs.headD 0 + (vs.drop 1).headD 0)
    [diamondG, diamondH] none (some "root") true false "oroot"

end Beam

/-!
Theorems.  Helper lemmas first, then one theorem per verified claim.
-/

namespace Beam

variable {V : Type}

/-- Looking up the inserted identity finds the inserted value. -/
theorem lookupId_insert_self (s : Bindings V) (e : Expression V) (v : V) :
    Bindings.lookupId (Bindings.insert s e v) (Expression.ident e) = some v := by
  induction s with
  | nil => simp [Bindings.insert, Bindings.lookupId]
  | cons p rest ih =>
      obtain ⟨k, w⟩ := p
      by_cases hk : Expression.ident k = Expression.ident e <;>
        simp [Bindings.insert, Bindings.lookupId, hk, ih]

/-- Inserting under one identity leaves every other identity's lookup
unchanged. -/
theorem lookupId_insert_ne (s : Bindings V) (e : Expression V) (v : V)
    (j : String) (hj : j ≠ Expression.ident e) :
    Bindings.lookupId (Bindings.insert s e v) j = Bindings.lookupId s j := by
  induction s with
  | nil => simp [Bindings.insert, Bindings.lookupId, Ne.symm hj]
  | cons p rest ih =>
      obtain ⟨k, w⟩ := p
      by_cases hk : Expression.ident k = Expression.ident e <;>
        by_cases hkj : Expression.ident k = j <;>
          simp_all [Bindings.insert, Bindings.lookupId]

/-- After a successful `Session.evaluate`, the expression's identity is
bound to the returned value in the post-call bindings. -/
theorem evaluate_ok_bound (s : Bindings V) (e : Expression V) (v : V)
    (s' : Bindings V) (h : Session.evaluate s e = (.ok v, s')) :
    Bindings.lookupId s' (Expression.ident e) = some v := by
  unfold Session.evaluate at h
  cases hl : Bindings.lookupId s (Expression.ident e) with
  | some w =>
      rw [hl] at h
      simp only [Prod.mk.injEq, Except.ok.injEq] at h
      obtain ⟨hv, hs⟩ := h
      subst hv
      subst hs
      exact hl
  | none =>
      rw [hl] at h
      cases he : Expression.evaluate_at e s with
      | ok w =>
          rw [he] at h
          simp only [Prod.mk.injEq, Except.ok.injEq] at h
          obtain ⟨hv, hs⟩ := h
          subst hv
          subst hs
          exact lookupId_insert_self s e w
      | error err =>
          rw [he] at h
          simp at h

/-- C1: evaluating the diamond graph `root = f(g(a), h(a))` from an empty
session applies the shared child `a`'s function TWICE, not once: because
`ComputedExpression.evaluate_at` recurses directly into each child's
`evaluate_at` instead of going through `session.evaluate`, the session
cache is bypassed for every inner node and the trace of applied node
identities is `[a, g, a, h, root]`, with two applications of `a`. -/
theorem diamond_child_function_applied_twice :
    (Session.evaluateTr ([] : Bindings Nat) diamondRoot).1 =
      .ok (2, ["a", "g", "a", "h", "root"]) ∧
    List.count "a" ["a", "g", "a", "h", "root"] = 2 :=
  ⟨rfl, rfl⟩

/-- C5: a `ComputedExpression` constructed without explicit flag
arguments reports `requires_partition_by_index() = True` and
`preserves_partition_by_index() = False`; one built via
`elementwise_expression` reports the inverse pair; and for Placeholder
and Constant expressions both predicates return `False`. -/
theorem partitioning_flag_defaults (name : String) (func : List V → V)
    (args : List (Expression V)) (proxy : Option V) (oid : Option String)
    (value : V) (cproxy : Option V) (pproxy : V) (objId : String) :
    ((computedExpressionDefault name func args proxy oid objId).requires_partition_by_index = .ok true ∧
      (computedExpressionDefault name func args proxy oid objId).preserves_partition_by_index = .ok false) ∧
    ((elementwise_expression name func args objId).requires_partition_by_index = .ok false ∧
      (elementwise_expression name func args objId).preserves_partition_by_index = .ok true) ∧
    ((placeholderExpression pproxy objId : Expression V).requires_partition_by_index = .ok false ∧
      (placeholderExpression pproxy objId : Expression V).preserves_partition_by_index = .ok false) ∧
    ((constantExpression value cproxy objId).requires_partition_by_index = .ok false ∧
      (constantExpression value cproxy objId).preserves_partition_by_index = .ok false) :=
  ⟨⟨rfl, rfl⟩, ⟨rfl, rfl⟩, ⟨rfl, rfl⟩, ⟨rfl, rfl⟩⟩

/-- C6: `ConstantExpression.evaluate_at` returns the stored value in any
session, regardless of the bindings present; the result is independent of
the session's bindings, and (as `evaluate_at` in this source never writes
to a session, reflected in its read-only embedding) the session state is
unchanged by the call. -/
theorem constant_evaluate_at_ignores_session (value : V) (proxy : Option V)
    (objId : String) (s t : Bindings V) :
    (constantExpression value proxy objId).evaluate_at s = .ok value ∧
    (constantExpression value proxy objId).evaluate_at s =
      (constantExpression value proxy objId).evaluate_at t :=
  ⟨rfl, rfl⟩

/-- C7: a `ComputedExpression` constructed without an explicit proxy gets
the function applied to the children's proxies in argument order as its
proxy, and a `ConstantExpression` constructed without an explicit proxy
uses the constant value as its own proxy. -/
theorem proxy_defaulting (name : String) (func : List V → V)
    (args : List (Expression V)) (oid : Option String) (r q : Bool)
    (value : V) (o1 o2 : String) :
    (computedExpression name func args none oid r q o1).proxy =
      func (args.map Expression.proxy) ∧
    (constantExpression value none o2).proxy = value :=
  ⟨rfl, rfl⟩

/-- C8: invoking `evaluate_at` (for every session argument),
`requires_partition_by_index`, or `preserves_partition_by_index` on a
bare base `Expression` instance fails with
`NotImplementedError(Expression)`. -/
theorem base_expression_methods_not_implemented (name : String) (proxy : V)
    (oid : Option String) (objId : String) (s : Bindings V) :
    (expression name proxy oid objId).evaluate_at s =
      .error (.notImplemented "Expression") ∧
    (expression name proxy oid objId).requires_partition_by_index =
      .error (.notImplemented "Expression") ∧
    (expression name proxy oid objId).preserves_partition_by_index =
      .error (.notImplemented "Expression") :=
  ⟨rfl, rfl, rfl⟩

/-- Evaluating a placeholder whose identity is bound returns the bound
value, with no change to the bindings (a pure cache hit). -/
theorem placeholder_evaluate_bound (p : V) (i : String) (v : V)
    (s : Bindings V) (hs : Bindings.lookupId s i = some v) :
    Session.evaluate s (.placeholder p i) = (.ok v, s) := by
  unfold Session.evaluate
  rw [show Expression.ident (.placeholder p i : Expression V) = i from rfl, hs]

/-- Evaluating a placeholder whose identity is unbound surfaces the
lookup's `KeyError` and leaves the bindings unchanged. -/
theorem placeholder_evaluate_unbound (p : V) (i : String) (s : Bindings V)
    (hs : Bindings.lookupId s i = none) :
    Session.evaluate s (.placeholder p i) = (.error (.keyError i), s) := by
  unfold Session.evaluate
  simp only [show Expression.ident (.placeholder p i : Expression V) = i from rfl, hs,
    Expression.evaluate_at]

/-- C3: for every `PlaceholderExpression` `p` and value `v`, evaluating
`p` in a session whose bindings map `p`'s identity to `v` returns `v`;
evaluating `p` in a session with no binding for `p` fails with the
`KeyError` raised by the session lookup, and the bindings are left
unchanged in that case. -/
theorem placeholder_binding_round_trip (proxy : V) (objId : String) (v : V) :
    (∀ s : Bindings V,
      Bindings.lookupId s (Expression.ident (placeholderExpression proxy objId)) = some v →
      Session.evaluate s (placeholderExpression proxy objId) = (.ok v, s)) ∧
    (∀ s : Bindings V,
      Bindings.lookupId s (Expression.ident (placeholderExpression proxy objId)) = none →
      Session.evaluate s (placeholderExpression proxy objId) =
        (.error (.keyError (Expression.ident (placeholderExpression proxy objId))), s)) :=
  ⟨fun s hs => placeholder_evaluate_bound proxy (mkId "placeholder" none objId) v s hs,
   fun s hs => placeholder_evaluate_unbound proxy (mkId "placeholder" none objId) s hs⟩

/-- Witness for C3 at `proxy = 0`, `v = 42` and the empty session. -/
theorem placeholder_binding_round_trip_witness :
    Session.evaluate [((placeholderExpression (0:Nat) "op"), 42)]
      (placeholderExpression (0:Nat) "op") =
      (.ok 42, [((placeholderExpression (0:Nat) "op"), 42)]) ∧
    Session.evaluate ([] : Bindings Nat) (placeholderExpression (0:Nat) "op") =
      (.error (.keyError (Expression.ident (placeholderExpression (0:Nat) "op"))), []) :=
  ⟨(placeholder_binding_round_trip (0:Nat) "op" 42).1
      [((placeholderExpression (0:Nat) "op"), 42)] rfl,
   (placeholder_binding_round_trip (0:Nat) "op" 42).2 [] rfl⟩

/-- C4: if `session.evaluate(root)` has returned a value once, a second
call on the same session returns the identical value with an empty
function-application trace: the root's identity is cached, so neither the
root's function nor any descendant's function runs again. -/
theorem evaluate_idempotent_no_recompute (s : Bindings V)
    (root : Expression V) (v : V) (tr : List String) (s' : Bindings V)
    (h : Session.evaluateTr s root = (.ok (v, tr), s')) :
    Session.evaluateTr s' root = (.ok (v, []), s') := by
  have hb : Bindings.lookupId s' (Expression.ident root) = some v := by
    unfold Session.evaluateTr at h
    cases hl : Bindings.lookupId s (Expression.ident root) with
    | some w =>
        rw [hl] at h
        simp only [Prod.mk.injEq, Except.ok.injEq] at h
        obtain ⟨⟨hv, _⟩, hs⟩ := h
        subst hv
        subst hs
        exact hl
    | none =>
        rw [hl] at h
        cases he : Expression.evaluate_atTr root s with
        | ok pr =>
            obtain ⟨w, tw⟩ := pr
            rw [he] at h
            simp only [Prod.mk.injEq, Except.ok.injEq] at h
            obtain ⟨⟨hv, _⟩, hs⟩ := h
            subst hv
            subst hs
            exact lookupId_insert_self s root w
        | error err =>
            rw [he] at h
            simp at h
  unfold Session.evaluateTr
  rw [hb]

/-- Witness for C4: a constant expression evaluated once from the empty
session, then re-evaluated on the resulting session. -/
theorem evaluate_idempotent_no_recompute_witness :
    Session.evaluateTr [((constantExpression (5:Nat) none "oc"), 5)]
      (constantExpression (5:Nat) none "oc") =
      (.ok (5, []), [((constantExpression (5:Nat) none "oc"), 5)]) :=
  evaluate_idempotent_no_recompute [] (constantExpression (5:Nat) none "oc")
    5 [] [((constantExpression (5:Nat) none "oc"), 5)] rfl

/-- C10: a `Session.evaluate` call on a `ComputedExpression` root adds at
most one entry to the bindings, under the root's own identity: every
other identity's lookup is unchanged, and a child expression whose
identity differs from the root's and was not previously bound still fails
`Session.lookup` with a `KeyError` after the call. -/
theorem evaluate_caches_only_root (s : Bindings V) (name : String)
    (func : List V → V) (args : List (Expression V)) (proxy : V)
    (i : String) (r q : Bool) :
    (∀ j : String, j ≠ i →
      Bindings.lookupId
          (Session.evaluate s (.computed name func args proxy i r q)).2 j =
        Bindings.lookupId s j) ∧
    (∀ c : Expression V, Expression.ident c ≠ i →
      Bindings.lookupId s (Expression.ident c) = none →
      Session.lookup
          (Session.evaluate s (.computed name func args proxy i r q)).2 c =
        .error (.keyError (Expression.ident c))) := by
  have key : ∀ j : String, j ≠ i →
      Bindings.lookupId
          (Session.evaluate s (.computed name func args proxy i r q)).2 j =
        Bindings.lookupId s j := by
    intro j hj
    unfold Session.evaluate
    simp only [Expression.ident]
    cases hl : Bindings.lookupId s i with
    | some w => rfl
    | none =>
        cases he : Expression.evaluate_at
            (.computed name func args proxy i r q : Expression V) s with
        | ok w =>
            simp only [he]
            exact lookupId_insert_ne s _ w j hj
        | error err => simp only [he]
  refine ⟨key, ?_⟩
  intro c hc hnone
  unfold Session.lookup
  rw [key (Expression.ident c) hc, hnone]

/-- Witness for C10: an argumentless computed root evaluated from the
empty session; an unrelated identity stays unbound and an unbound
placeholder child still raises `KeyError`. -/
theorem evaluate_caches_only_root_witness :
    Bindings.lookupId
        (Session.evaluate ([] : Bindings Nat)
          (.computed "f" (fun _ => 0) [] 0 "i" true false)).2 "j" =
      Bindings.lookupId ([] : Bindings Nat) "j" ∧
    Session.lookup
        (Session.evaluate ([] : Bindings Nat)
          (.computed "f" (fun _ => 0) [] 0 "i" true false)).2
        (placeholderExpression (0:Nat) "oc") =
      .error (.keyError (Expression.ident (placeholderExpression (0:Nat) "oc"))) :=
  ⟨(evaluate_caches_only_root [] "f" (fun _ => 0) [] 0 "i" true false).1 "j"
      (by decide),
   (evaluate_caches_only_root [] "f" (fun _ => 0) [] 0 "i" true false).2
      (placeholderExpression (0:Nat) "oc") (by decide) rfl⟩

/-- C2 counterexample: two distinct instances constructed with the same
explicit identity string `''` are NOT equal, because `Expression.__init__`
assigns `self._id = _id or '%s_%s' % (name, id(self))` and the empty
string is falsy in Python, so each instance falls back to its own
object-id-based token. -/
theorem same_empty_identity_instances_not_equal :
    Expression.beq (expression "n" (0:Nat) (some "") "140001")
      (expression "n" (0:Nat) (some "") "140002") = false := by
  decide

/-- C2 (amended): any expression constructed with an explicit NON-EMPTY
identity string `i` (via the base `Expression` or `ComputedExpression`
constructor, the two that accept `_id`) gets `i` as its identity, and any
two expressions with equal identity compare equal under `__eq__`, hash
identically, and are the same cache entry for a Session: a value bound
under one is returned by `Session.lookup` of the other, and once one has
been evaluated, evaluating the other hits the cache and returns the same
value with no change to the bindings — regardless of object identity or
any other field. -/
theorem same_identity_same_cache_entry (i : String) (hi : i ≠ "")
    (e1 e2 : Expression V)
    (h1 : Expression.ident e1 = i) (h2 : Expression.ident e2 = i) :
    (∀ (n : String) (f : List V → V) (a : List (Expression V)) (p : Option V)
        (r q : Bool) (o : String),
        Expression.ident (computedExpression n f a p (some i) r q o) = i) ∧
    (∀ (n : String) (p : V) (o : String),
        Expression.ident (expression n p (some i) o) = i) ∧
    Expression.beq e1 e2 = true ∧
    Expression.hashVal e1 = Expression.hashVal e2 ∧
    (∀ (s : Bindings V) (v : V),
        Session.lookup (Bindings.insert s e1 v) e2 = .ok v) ∧
    (∀ (s s' : Bindings V) (v : V),
        Session.evaluate s e1 = (.ok v, s') →
        Session.evaluate s' e2 = (.ok v, s')) := by
  have hid : Expression.ident e2 = Expression.ident e1 := by rw [h1, h2]
  refine ⟨?_, ?_, ?_, ?_, ?_, ?_⟩
  · intro n f a p r q o
    simp [computedExpression, Expression.ident, mkId, hi]
  · intro n p o
    simp [expression, Expression.ident, mkId, hi]
  · simp [Expression.beq, h1, h2]
  · simp [Expression.hashVal, h1, h2]
  · intro s v
    unfold Session.lookup
    rw [hid, lookupId_insert_self]
  · intro s s' v hev
    have hb := evaluate_ok_bound s e1 v s' hev
    unfold Session.evaluate
    rw [hid, hb]

/-- Witness for the amended C2: a computed and a bare expression that
differ in every other field but share the explicit identity `'x'`. -/
theorem same_identity_same_cache_entry_witness :
    Expression.beq
        (computedExpression "n1" (fun _ => (0:Nat)) [] none (some "x") true false "o1")
        (expression "n2" (7:Nat) (some "x") "o2") = true ∧
    Session.lookup
        (Bindings.insert []
          (computedExpression "n1" (fun _ => (0:Nat)) [] none (some "x") true false "o1") 5)
        (expression "n2" (7:Nat) (some "x") "o2") = .ok 5 :=
  ⟨(same_identity_same_cache_entry "x" (by decide)
      (computedExpression "n1" (fun _ => (0:Nat)) [] none (some "x") true false "o1")
      (expression "n2" (7:Nat) (some "x") "o2") rfl rfl).2.2.1,
   (same_identity_same_cache_entry "x" (by decide)
      (computedExpression "n1" (fun _ => (0:Nat)) [] none (some "x") true false "o1")
      (expression "n2" (7:Nat) (some "x") "o2") rfl rfl).2.2.2.2.1 [] 5⟩

/-- Setting one index of a list leaves `getD` at any other index
unchanged. -/
theorem list_getD_set_ne {A : Type} (l : List A) (i j : Nat) (a d : A)
    (hij : i ≠ j) : (l.set i a).getD j d = l.getD j d := by
  induction l generalizing i j with
  | nil => rfl
  | cons x xs ih =>
      cases i with
      | zero =>
          cases j with
          | zero => exact absurd rfl hij
          | succ j2 => rfl
      | succ i2 =>
          cases j with
          | zero => rfl
          | succ j2 => exact ih i2 j2 (fun hh => hij (by rw [hh]))

/-- Reading below the length of the left list ignores an appended
suffix. -/
theorem list_getD_append_lt {A : Type} (l l2 : List A) (i : Nat) (d : A)
    (h : i < l.length) : (l ++ l2).getD i d = l.getD i d := by
  induction l generalizing i with
  | nil => exact absurd h (Nat.not_lt_zero i)
  | cons x xs ih =>
      cases i with
      | zero => rfl
      | succ i2 => exact ih i2 (Nat.lt_of_succ_lt_succ h)

/-- Reading a freshly appended cell yields its contents. -/
theorem list_getD_append_length {A : Type} (l : List A) (b d : A) :
    (l ++ [b]).getD l.length d = b := by
  induction l with
  | nil => rfl
  | cons x xs ih => simp [ih]

/-- Writing one heap address leaves the reads of every other address
unchanged. -/
theorem read_write_ne (h : DictHeap V) (a c : Nat) (bv : Bindings V)
    (hac : a ≠ c) : (h.write a bv).read c = h.read c :=
  list_getD_set_ne h.cells a c bv [] hac

/-- Allocation does not disturb existing addresses. -/
theorem read_alloc_old (h : DictHeap V) (b : Bindings V) (a : Nat)
    (ha : a < h.cells.length) : ((h.alloc b).2).read a = h.read a :=
  list_getD_append_lt h.cells [b] a [] ha

/-- C9: `Session.__init__` copies the supplied mapping into a fresh dict,
so for a session constructed from the dict at address `ma`, (1) replacing
the contents of the caller's dict afterwards changes neither the result
of any `evaluate` call nor of any `lookup` call on the session, and (2)
the cache insertions performed by the session's `evaluate` never modify
the caller's dict. -/
theorem session_init_copies_bindings (h : DictHeap V) (ma : Nat)
    (hma : ma < h.cells.length) :
    (∀ (b : Bindings V) (e : Expression V),
        (Session.evaluateH ((Session.init h (some ma)).2.write ma b)
            (Session.init h (some ma)).1 e).1 =
          (Session.evaluateH (Session.init h (some ma)).2
            (Session.init h (some ma)).1 e).1) ∧
    (∀ (b : Bindings V) (e : Expression V),
        Session.lookupH ((Session.init h (some ma)).2.write ma b)
            (Session.init h (some ma)).1 e =
          Session.lookupH (Session.init h (some ma)).2
            (Session.init h (some ma)).1 e) ∧
    (∀ e : Expression V,
        ((Session.evaluateH (Session.init h (some ma)).2
            (Session.init h (some ma)).1 e).2).read ma = h.read ma) := by
  have hne : ma ≠ (Session.init h (some ma)).1 := Nat.ne_of_lt hma
  have hrd : ∀ b : Bindings V,
      ((Session.init h (some ma)).2.write ma b).read (Session.init h (some ma)).1 =
        (Session.init h (some ma)).2.read (Session.init h (some ma)).1 :=
    fun b => read_write_ne (Session.init h (some ma)).2 ma
      (Session.init h (some ma)).1 b hne
  refine ⟨?_, ?_, ?_⟩
  · intro b e
    simp only [Session.evaluateH]
    rw [hrd b]
  · intro b e
    simp only [Session.lookupH]
    rw [hrd b]
  · intro e
    simp only [Session.evaluateH]
    rw [read_write_ne (Session.init h (some ma)).2 (Session.init h (some ma)).1
      ma _ (Ne.symm hne)]
    exact read_alloc_old h (h.read ma) ma hma

/-- Witness for C9: a heap holding one (empty) caller dict at address 0;
evaluating a constant on the session leaves the caller's dict intact. -/
theorem session_init_copies_bindings_witness :
    ((Session.evaluateH (Session.init (⟨[[]]⟩ : DictHeap Nat) (some 0)).2
        (Session.init (⟨[[]]⟩ : DictHeap Nat) (some 0)).1
        (constantExpression 5 none "oc")).2).read 0 =
      (⟨[[]]⟩ : DictHeap Nat).read 0 :=
  (session_init_copies_bindings (⟨[[]]⟩ : DictHeap Nat) 0 (by decide)).2.2
    (constantExpression 5 none "oc")

end Beam
